import Mathlib

/-
Verification of the component type preservation subsystem
(src/cli/lib/componentTypePreservation.ts).

The TypeScript module inspects a parsed source file (a list of top-level
statements produced by ts.createSourceFile) and extracts, classifies and
re-serializes the exported `components` binding.  The embedding below models
the fragment of the TypeScript AST the module actually inspects:
variable statements with their modifier lists and declaration lists,
binding names, type annotations (type references with optionally qualified
names, object type literals, and an opaque catch-all), and initializers.
The parser itself (ts.createSourceFile) is third-party library code; the
module's functions are modelled from the point where the parsed statement
list is in hand, and the printer (ts.createPrinter().printNode) is modelled
as a canonical single-line serialization.  Every property proved below
depends only on formatting-independent features of the printed text
(presence of braces, presence of the sentinel name, the statement template),
never on the exact whitespace the TypeScript printer would choose.
-/

namespace ComponentTypePreservation

/-- Modifier of a top-level statement.  The source only ever tests
`m.kind === ts.SyntaxKind.ExportKeyword` and
`m.kind === ts.SyntaxKind.DeclareKeyword`; every other modifier kind is
collapsed into `otherMod`. -/
inductive Modifier where
  | exportKw : Modifier
  | declareKw : Modifier
  | otherMod (text : String) : Modifier
deriving DecidableEq

/-- Name position of a variable declaration: `ts.isIdentifier(decl.name)`
distinguishes plain identifiers from binding patterns. -/
inductive BindingName where
  | ident (text : String) : BindingName
  | pattern (printed : String) : BindingName
deriving DecidableEq

/-- Type annotation node.  `typeReference` covers `ts.isTypeReferenceNode`
nodes, whose `typeName` is either an identifier (qualifier `none`) or a
qualified name `q.name` (the source reads `typeName.right.text`, which is
the `name` field here).  `typeLiteral` covers object type literals; each
member is carried as its printed text, since the source never inspects
members individually.  `otherType` covers every other type node, carried as
its printed text. -/
inductive TypeExpr where
  | typeReference (qualifier : Option String) (name : String) : TypeExpr
  | typeLiteral (members : List String) : TypeExpr
  | otherType (printed : String) : TypeExpr
deriving DecidableEq

/-- One declaration of a variable statement's declaration list:
`decl.name`, `decl.type`, `decl.initializer` (the initializer is carried
as its printed expression text; the source never inspects it). -/
structure Declaration where
  name : BindingName
  type : Option TypeExpr
  initializer : Option String
deriving DecidableEq

/-- Top-level statement: `ts.isVariableStatement` nodes keep their modifier
and declaration lists; every other statement kind is opaque. -/
inductive Statement where
  | variableStatement (modifiers : List Modifier) (declarations : List Declaration) : Statement
  | otherStatement (printed : String) : Statement
deriving DecidableEq

/-- The statement of `statement.modifiers?.some((m) => m.kind ===
ts.SyntaxKind.ExportKeyword)`; an absent modifier list is the empty list. -/
def hasExport (mods : List Modifier) : Bool :=
  mods.any (· == Modifier.exportKw)

/-- The statement of `statement.modifiers?.some((m) => m.kind ===
ts.SyntaxKind.DeclareKeyword)`. -/
def hasDeclare (mods : List Modifier) : Bool :=
  mods.any (· == Modifier.declareKw)

/-- Printed text of one modifier keyword (with its trailing space). -/
def printModifier : Modifier → String
  | Modifier.exportKw => "export "
  | Modifier.declareKw => "declare "
  | Modifier.otherMod t => t ++ " "

/-- Printed text of a modifier list. -/
def printModifiers : List Modifier → String
  | [] => ""
  | m :: rest => printModifier m ++ printModifiers rest

/-- Canonical printed text of a type node, modelling
`printer.printNode(ts.EmitHint.Unspecified, typeNode, sourceFile)`.
Object type literals print with braces around their member list; the
formatting (single-line here) is canonical, and no theorem below depends
on anything but formatting-independent features. -/
def printType : TypeExpr → String
  | TypeExpr.typeReference none n => n
  | TypeExpr.typeReference (some q) n => q ++ "." ++ n
  | TypeExpr.typeLiteral [] => "\x7b\x7d"
  | TypeExpr.typeLiteral ms => "\x7b " ++ String.intercalate "; " ms ++ " \x7d"
  | TypeExpr.otherType s => s

/-- Printed text of a binding name. -/
def printBindingName : BindingName → String
  | BindingName.ident t => t
  | BindingName.pattern p => p

/-- Printed text of an optional type annotation position. -/
def printOptType : Option TypeExpr → String
  | none => ""
  | some t => ": " ++ printType t

/-- Printed text of an optional initializer position. -/
def printOptInit : Option String → String
  | none => ""
  | some e => " = " ++ e

/-- Printed text of one variable declaration. -/
def printDecl (d : Declaration) : String :=
  printBindingName d.name ++ printOptType d.type ++ printOptInit d.initializer

/-- Printed text of a declaration list (comma-separated). -/
def printDecls : List Declaration → String
  | [] => ""
  | [d] => printDecl d
  | d :: rest => printDecl d ++ ", " ++ printDecls rest

/-- Canonical printed text of a top-level statement, modelling
`printer.printNode(ts.EmitHint.Unspecified, statement, sourceFile)` for a
variable statement (the generated artifacts only ever use `const`
declaration lists). -/
def printStatement : Statement → String
  | Statement.variableStatement mods decls =>
      printModifiers mods ++ "const " ++ printDecls decls ++ ";"
  | Statement.otherStatement s => s

/-- Boolean prefix test on character lists. -/
def charsPrefixOf : List Char → List Char → Bool
  | [], _ => true
  | _ :: _, [] => false
  | a :: as, b :: bs => a == b && charsPrefixOf as bs

/-- Boolean substring occurrence test on character lists. -/
def charsContain (pat : List Char) : List Char → Bool
  | [] => pat.isEmpty
  | b :: bs => charsPrefixOf pat (b :: bs) || charsContain pat bs

/-- The statement of JavaScript `s.includes(pat)`. -/
def strIncludes (s pat : String) : Bool :=
  charsContain pat.data s.data

/-- The statement of lines 44-55 of the source: the annotation is a
`ts.isTypeReferenceNode` whose terminal name text (identifier text, or
`typeName.right.text` for qualified names) is the sentinel
`"AnyComponents"`. -/
def isSentinelTypeRef : Option TypeExpr → Bool
  | some (TypeExpr.typeReference _ n) => n == "AnyComponents"
  | _ => false

/-- The statement of `extractComponentTypes`'s inner loop over
`statement.declarationList.declarations` together with the early returns
inside it.  `some r` means the loop body executed `return r` (with
`r = none` for `return null` on the sentinel, `r = some text` for the two
preserving returns); `none` means the loop fell through to the next
statement.  `isDeclare` is the enclosing statement's declare flag and
`stmtText` the printed enclosing statement. -/
def extractFromDecls (isDeclare : Bool) (stmtText : String) :
    List Declaration → Option (Option String)
  | [] => none
  | d :: rest =>
    if d.name = BindingName.ident ("components") then
      if isSentinelTypeRef d.type then
        some none
      else if isDeclare then
        some (some stmtText)
      else
        match d.type with
        | some t =>
            some (some ("export declare const components: " ++ printType t ++ ";"))
        | none => extractFromDecls isDeclare stmtText rest
    else extractFromDecls isDeclare stmtText rest

/-- The statement of `extractComponentTypes`, from the point where the
parsed statement list of the artifact is in hand. -/
def extractComponentTypes : List Statement → Option String
  | [] => none
  | Statement.variableStatement mods decls :: rest =>
    if hasExport mods then
      match extractFromDecls (hasDeclare mods)
          (printStatement (Statement.variableStatement mods decls)) decls with
      | some r => r
      | none => extractComponentTypes rest
    else extractComponentTypes rest
  | Statement.otherStatement _ :: rest => extractComponentTypes rest

/-- The statement of `hasRealComponentTypes`: JavaScript falsiness of
`componentDecl` (null or the empty string) yields `false`; otherwise the
result is `componentDecl.includes("{") && !componentDecl.includes("AnyComponents")`. -/
def hasRealComponentTypes : Option String → Bool
  | none => false
  | some d =>
    if d = "" then false
    else strIncludes d ("\x7b") && !(strIncludes d ("AnyComponents"))

/-- The statement of `extractComponentTypeAnnotation`'s loop over one
statement's declarations: the first declaration whose name is the
identifier `components` and which carries a type annotation yields the
printed annotation. -/
def annotFromDecls : List Declaration → Option String
  | [] => none
  | d :: rest =>
    if d.name = BindingName.ident ("components") ∧ d.type.isSome then
      Option.map printType d.type
    else annotFromDecls rest

/-- The statement of `extractComponentTypeAnnotation`, from the point where
the parsed statement list of the declaration text is in hand.  No modifier
check is performed: any variable statement is inspected. -/
def extractComponentTypeAnnotation : List Statement → Option String
  | [] => none
  | Statement.variableStatement _ decls :: rest =>
    match annotFromDecls decls with
    | some a => some a
    | none => extractComponentTypeAnnotation rest
  | Statement.otherStatement _ :: rest => extractComponentTypeAnnotation rest

/-- The statement of `isDeclarationFile`, from the point where the parsed
statement list is in hand: some top-level variable statement carries both
the export and the declare modifier. -/
def isDeclarationFile (statements : List Statement) : Bool :=
  statements.any fun s =>
    match s with
    | Statement.variableStatement mods _ => hasExport mods && hasDeclare mods
    | Statement.otherStatement _ => false

/-- Declaration binds the identifier `components` (the guard of lines 42
and 133-135 of the source). -/
def declIsComponents (d : Declaration) : Bool :=
  decide (d.name = BindingName.ident ("components"))

/-- Annotation is an object type literal. -/
def isTypeLiteralAnn : Option TypeExpr → Bool
  | some (TypeExpr.typeLiteral _) => true
  | _ => false

/-- Statement-wise condition: every `components` declaration of an exported
variable statement has a sentinel type reference annotation. -/
def stmtSentinelOk : Statement → Bool
  | Statement.variableStatement mods decls =>
      !hasExport mods || decls.all fun d => !declIsComponents d || isSentinelTypeRef d.type
  | Statement.otherStatement _ => true

/-- Statement-wise condition: every `components` declaration of an exported
variable statement has an object type literal annotation. -/
def stmtLiteralOk : Statement → Bool
  | Statement.variableStatement mods decls =>
      !hasExport mods || decls.all fun d => !declIsComponents d || isTypeLiteralAnn d.type
  | Statement.otherStatement _ => true

/-- Statement-wise condition: an exported variable statement has no
`components` declaration at all. -/
def stmtNoComponents : Statement → Bool
  | Statement.variableStatement mods decls =>
      !hasExport mods || !decls.any declIsComponents
  | Statement.otherStatement _ => true

/-- Statement-wise condition: every `components` declaration of an exported
variable statement carries no type annotation. -/
def stmtUntypedOk : Statement → Bool
  | Statement.variableStatement mods decls =>
      !hasExport mods || decls.all fun d => !declIsComponents d || d.type.isNone
  | Statement.otherStatement _ => true

/-- Statement-wise condition: an exported ambient (declare) variable
statement has no `components` declaration. -/
def stmtNoDeclareComponents : Statement → Bool
  | Statement.variableStatement mods decls =>
      !(hasExport mods && hasDeclare mods) || !decls.any declIsComponents
  | Statement.otherStatement _ => true

/-- Statement-wise condition: every `components` declaration of an exported
variable statement carries a type annotation that is not a sentinel type
reference. -/
def stmtTypedNonSentinelOk : Statement → Bool
  | Statement.variableStatement mods decls =>
      !hasExport mods ||
        decls.all fun d => !declIsComponents d || (d.type.isSome && !isSentinelTypeRef d.type)
  | Statement.otherStatement _ => true

/-- Statement carries an exported `components` declaration. -/
def stmtHasExportedComponents : Statement → Bool
  | Statement.variableStatement mods decls =>
      hasExport mods && decls.any declIsComponents
  | Statement.otherStatement _ => false

section Helpers

/-- A list is a Boolean prefix of itself followed by anything. -/
theorem charsPrefixOf_append (p s : List Char) : charsPrefixOf p (p ++ s) = true := by
  induction p with
  | nil => rfl
  | cons a as ih => simp [charsPrefixOf, ih]

/-- Occurrence test succeeds on an explicit occurrence. -/
theorem charsContain_append_middle (pre pat suf : List Char) :
    charsContain pat (pre ++ (pat ++ suf)) = true := by
  induction pre with
  | nil =>
    cases pat with
    | nil => cases suf <;> simp [charsContain, charsPrefixOf]
    | cons a as => simp [charsContain, charsPrefixOf, charsPrefixOf_append]
  | cons b bs ih => simp [charsContain, ih]

/-- String-level occurrence test succeeds on an explicit occurrence. -/
theorem strIncludes_of_eq (D pre pat suf : String) (h : D = pre ++ (pat ++ suf)) :
    strIncludes D pat = true := by
  subst h
  unfold strIncludes
  rw [String.data_append, String.data_append]
  exact charsContain_append_middle _ _ _

/-- Printed object type literals open with a brace. -/
theorem printType_literal_brace (ms : List String) :
    ∃ r, printType (TypeExpr.typeLiteral ms) = "\x7b" ++ r := by
  cases ms with
  | nil => exact ⟨"\x7d", by decide⟩
  | cons m rest =>
    refine ⟨" " ++ String.intercalate "; " (m :: rest) ++ " \x7d", ?_⟩
    show "\x7b " ++ String.intercalate "; " (m :: rest) ++ " \x7d" = _
    rw [String.append_assoc]
    rfl

/-- Printed declaration lists expose each member declaration's text. -/
theorem printDecls_decomp (decls : List Declaration) (d : Declaration) (h : d ∈ decls) :
    ∃ p s, printDecls decls = p ++ (printDecl d ++ s) := by
  induction decls with
  | nil => cases h
  | cons d0 rest ih =>
    rcases List.mem_cons.mp h with rfl | hmem
    · cases rest with
      | nil =>
        exact ⟨"", "", by simp [printDecls, String.append_empty, String.empty_append]⟩
      | cons r1 rs =>
        exact ⟨"", ", " ++ printDecls (r1 :: rs),
          by simp [printDecls, String.append_assoc, String.empty_append]⟩
    · cases rest with
      | nil => cases hmem
      | cons r1 rs =>
        obtain ⟨p, s, hp⟩ := ih hmem
        exact ⟨printDecl d0 ++ ", " ++ p, s,
          by simp [printDecls, hp, String.append_assoc]⟩

/-- Printed variable statements expose each member declaration's text. -/
theorem printStatement_decomp (mods : List Modifier) (decls : List Declaration)
    (d : Declaration) (h : d ∈ decls) :
    ∃ p s,
      printStatement (Statement.variableStatement mods decls) = p ++ (printDecl d ++ s) := by
  obtain ⟨p, s, hp⟩ := printDecls_decomp decls d h
  exact ⟨printModifiers mods ++ "const " ++ p, s ++ ";",
    by simp [printStatement, hp, String.append_assoc]⟩

/-- Without a `components` declaration, the inner loop falls through. -/
theorem extractFromDecls_no_components (i : Bool) (t : String) (decls : List Declaration)
    (h : decls.any declIsComponents = false) :
    extractFromDecls i t decls = none := by
  induction decls with
  | nil => rfl
  | cons d rest ih =>
    simp only [List.any_cons, Bool.or_eq_false_iff] at h
    have hd : ¬ d.name = BindingName.ident ("components") := by
      have := h.1
      simp [declIsComponents] at this
      exact this
    simp [extractFromDecls, hd, ih h.2]

/-- If every `components` declaration carries a sentinel annotation, the
inner loop either falls through or executes the sentinel `return null`. -/
theorem extractFromDecls_sentinel (i : Bool) (t : String) (decls : List Declaration)
    (h : (decls.all fun d => !declIsComponents d || isSentinelTypeRef d.type) = true) :
    extractFromDecls i t decls = none ∨ extractFromDecls i t decls = some none := by
  induction decls with
  | nil => exact Or.inl rfl
  | cons d rest ih =>
    simp only [List.all_cons, Bool.and_eq_true] at h
    by_cases hc : d.name = BindingName.ident ("components")
    · have hs : isSentinelTypeRef d.type = true := by
        have h1 := h.1
        simp [declIsComponents, hc] at h1
        exact h1
      exact Or.inr (by simp [extractFromDecls, hc, hs])
    · have := ih h.2
      simpa [extractFromDecls, hc] using this

/-- If every `components` declaration is unannotated and the enclosing
statement lacks the declare modifier, the inner loop falls through. -/
theorem extractFromDecls_untyped (t : String) (decls : List Declaration)
    (h : (decls.all fun d => !declIsComponents d || d.type.isNone) = true) :
    extractFromDecls false t decls = none := by
  induction decls with
  | nil => rfl
  | cons d rest ih =>
    simp only [List.all_cons, Bool.and_eq_true] at h
    by_cases hc : d.name = BindingName.ident ("components")
    · have hn : d.type = none := by
        have h1 := h.1
        simp [declIsComponents, hc, Option.isNone_iff_eq_none] at h1
        exact h1
      simp [extractFromDecls, hc, hn, isSentinelTypeRef, ih h.2]
    · simpa [extractFromDecls, hc] using ih h.2

/-- A string closed by the statement terminator is nonempty. -/
theorem append_semicolon_ne_empty (a : String) : ¬ (a ++ ";") = "" := by
  intro h
  have hd := congrArg String.data h
  rw [String.data_append] at hd
  have hlen : (a.data ++ ((";" : String)).data).length = 0 := by
    rw [hd]
    rfl
  have h1 : (((";" : String)).data).length = 1 := rfl
  rw [List.length_append, h1] at hlen
  omega

/-- If every `components` declaration carries a non-sentinel annotation and
one is present, the inner loop executes a preserving return, and (when the
enclosing statement's printed text is nonempty) the returned declaration
text is nonempty. -/
theorem extractFromDecls_typed (i : Bool) (t : String) (decls : List Declaration)
    (ht : ¬ t = "")
    (hall : (decls.all fun d =>
        !declIsComponents d || (d.type.isSome && !isSentinelTypeRef d.type)) = true)
    (hex : decls.any declIsComponents = true) :
    ∃ D, extractFromDecls i t decls = some (some D) ∧ ¬ D = "" := by
  induction decls with
  | nil => cases hex
  | cons d rest ih =>
    simp only [List.all_cons, Bool.and_eq_true] at hall
    by_cases hc : d.name = BindingName.ident ("components")
    · have h1 := hall.1
      simp [declIsComponents, hc, Bool.and_eq_true] at h1
      obtain ⟨hsome, hsent⟩ := h1
      obtain ⟨t0, ht0⟩ := Option.isSome_iff_exists.mp hsome
      rw [ht0] at hsent
      cases i with
      | true => exact ⟨t, by simp [extractFromDecls, hc, ht0, hsent], ht⟩
      | false =>
        exact ⟨"export declare const components: " ++ printType t0 ++ ";",
          by simp [extractFromDecls, hc, ht0, hsent],
          append_semicolon_ne_empty ("export declare const components: " ++ printType t0)⟩
    · have hex' : rest.any declIsComponents = true := by
        simp only [List.any_cons, Bool.or_eq_true] at hex
        rcases hex with h | h
        · exact absurd (by simpa [declIsComponents] using h) hc
        · exact h
      obtain ⟨D, hD, hne⟩ := ih hall.2 hex'
      exact ⟨D, by simpa [extractFromDecls, hc] using hD, hne⟩

/-- If every `components` declaration carries an object type literal
annotation, one is present, and the enclosing statement text exposes every
declaration's printed text, the inner loop executes a preserving return
whose text contains an opening brace. -/
theorem extractFromDecls_literal (i : Bool) (t : String) (decls : List Declaration)
    (htext : ∀ d ∈ decls, ∃ p s, t = p ++ (printDecl d ++ s))
    (hall : (decls.all fun d => !declIsComponents d || isTypeLiteralAnn d.type) = true)
    (hex : decls.any declIsComponents = true) :
    ∃ D p s, extractFromDecls i t decls = some (some D) ∧ D = p ++ ("\x7b" ++ s) := by
  induction decls with
  | nil => cases hex
  | cons d rest ih =>
    simp only [List.all_cons, Bool.and_eq_true] at hall
    by_cases hc : d.name = BindingName.ident ("components")
    · have h1 := hall.1
      simp [declIsComponents, hc] at h1
      obtain ⟨ms, hms⟩ : ∃ ms, d.type = some (TypeExpr.typeLiteral ms) := by
        cases hty : d.type with
        | none => rw [hty] at h1; cases h1
        | some te =>
          cases te with
          | typeReference q n => rw [hty] at h1; cases h1
          | typeLiteral ms => exact ⟨ms, rfl⟩
          | otherType s => rw [hty] at h1; cases h1
      have hsent : isSentinelTypeRef (some (TypeExpr.typeLiteral ms)) = false := rfl
      obtain ⟨r, hr⟩ := printType_literal_brace ms
      cases i with
      | true =>
        obtain ⟨p0, s0, hp0⟩ := htext d (List.mem_cons_self d rest)
        refine ⟨t, p0 ++ (printBindingName d.name ++ ": "),
          r ++ (printOptInit d.initializer ++ s0),
          by simp [extractFromDecls, hc, hms, hsent], ?_⟩
        rw [hp0]
        simp [printDecl, printOptType, hms, hr, String.append_assoc]
      | false =>
        refine ⟨"export declare const components: " ++ printType (TypeExpr.typeLiteral ms) ++ ";",
          "export declare const components: ", r ++ ";",
          by simp [extractFromDecls, hc, hsent, hms], ?_⟩
        rw [hr]
        simp [String.append_assoc]
    · have hex' : rest.any declIsComponents = true := by
        simp only [List.any_cons, Bool.or_eq_true] at hex
        rcases hex with h | h
        · exact absurd (by simpa [declIsComponents] using h) hc
        · exact h
      have htext' : ∀ d' ∈ rest, ∃ p s, t = p ++ (printDecl d' ++ s) := by
        intro d' hd'
        exact htext d' (List.mem_cons_of_mem d hd')
      obtain ⟨D, p, s, hD, hDeq⟩ := ih htext' hall.2 hex'
      exact ⟨D, p, s, by simpa [extractFromDecls, hc] using hD, hDeq⟩

/-- A string exhibiting an opening brace is nonempty, passes the brace test,
and so `hasRealComponentTypes` on it reduces to the absence of the sentinel
name. -/
theorem hasReal_of_brace (D p s : String) (hD : D = p ++ ("\x7b" ++ s)) :
    hasRealComponentTypes (some D) = !(strIncludes D ("AnyComponents")) := by
  have hbr := strIncludes_of_eq D p ("\x7b") s hD
  have hne : ¬ D = "" := by
    intro h0
    rw [h0] at hD
    have hdata := congrArg String.data hD
    rw [String.data_append, String.data_append] at hdata
    have h2 := List.append_eq_nil.mp hdata.symm
    have h3 := List.append_eq_nil.mp h2.2
    exact absurd h3.1 (by decide)
  simp [hasRealComponentTypes, hne, hbr]

end Helpers

section Claims

/-- C1 counterexample: the artifact
`export declare const components: { x: AnyComponents };` has an object type
literal annotation on the exported `components` binding, so the claim
asserts the extraction is non-null with `hasRealComponentTypes` true; the
code does return a non-null declaration, but its text contains the
substring `AnyComponents`, so `hasRealComponentTypes` returns false. -/
theorem c1_counterexample :
    extractComponentTypes
        [Statement.variableStatement [Modifier.exportKw, Modifier.declareKw]
          [⟨BindingName.ident ("components"),
            some (TypeExpr.typeLiteral ["x: AnyComponents"]), none⟩]] =
      some ("export declare const components: \x7b x: AnyComponents \x7d;") ∧
    hasRealComponentTypes
        (extractComponentTypes
          [Statement.variableStatement [Modifier.exportKw, Modifier.declareKw]
            [⟨BindingName.ident ("components"),
              some (TypeExpr.typeLiteral ["x: AnyComponents"]), none⟩]]) = false := by
  exact ⟨by decide, by decide⟩

/-- C1 amended: for every artifact whose exported `components` bindings all
carry object type literal annotations (at least one being present),
`extractComponentTypes` returns a non-null declaration whose text contains
an opening brace, and `hasRealComponentTypes` of that declaration is true
exactly when its text does not contain the substring `AnyComponents` (so a
sentinel name occurring verbatim inside the object literal makes it
false). -/
theorem c1_amended_literal_real (sf : List Statement)
    (hall : sf.all stmtLiteralOk = true)
    (hex : sf.any stmtHasExportedComponents = true) :
    ∃ D, extractComponentTypes sf = some D ∧ strIncludes D ("\x7b") = true ∧
      hasRealComponentTypes (some D) = !(strIncludes D ("AnyComponents")) := by
  induction sf with
  | nil => cases hex
  | cons st rest ih =>
    simp only [List.all_cons, Bool.and_eq_true] at hall
    cases st with
    | otherStatement sotext =>
      have hex' : rest.any stmtHasExportedComponents = true := by
        simpa [List.any_cons, stmtHasExportedComponents] using hex
      obtain ⟨D, h1, h2, h3⟩ := ih hall.2 hex'
      exact ⟨D, by simpa [extractComponentTypes] using h1, h2, h3⟩
    | variableStatement mods decls =>
      cases he : hasExport mods with
      | false =>
        have hex' : rest.any stmtHasExportedComponents = true := by
          simpa [List.any_cons, stmtHasExportedComponents, he] using hex
        obtain ⟨D, h1, h2, h3⟩ := ih hall.2 hex'
        exact ⟨D, by simpa [extractComponentTypes, he] using h1, h2, h3⟩
      | true =>
        cases hcd : decls.any declIsComponents with
        | true =>
          have hdecls :
              (decls.all fun d => !declIsComponents d || isTypeLiteralAnn d.type) = true := by
            have h1 := hall.1
            simp only [stmtLiteralOk, he, Bool.not_true, Bool.false_or] at h1
            exact h1
          have htext : ∀ d ∈ decls, ∃ p s,
              printStatement (Statement.variableStatement mods decls) =
                p ++ (printDecl d ++ s) :=
            fun d hd => printStatement_decomp mods decls d hd
          obtain ⟨D, p, s, hD, hDeq⟩ :=
            extractFromDecls_literal (hasDeclare mods)
              (printStatement (Statement.variableStatement mods decls)) decls htext hdecls hcd
          refine ⟨D, ?_, strIncludes_of_eq D p ("\x7b") s hDeq, hasReal_of_brace D p s hDeq⟩
          simp [extractComponentTypes, he, hD]
        | false =>
          have hnone := extractFromDecls_no_components (hasDeclare mods)
            (printStatement (Statement.variableStatement mods decls)) decls hcd
          have hex' : rest.any stmtHasExportedComponents = true := by
            simpa [List.any_cons, stmtHasExportedComponents, he, hcd] using hex
          obtain ⟨D, h1, h2, h3⟩ := ih hall.2 hex'
          exact ⟨D, by simpa [extractComponentTypes, he, hnone] using h1, h2, h3⟩

/-- C1 amended, witness: a single exported ambient `components` binding with
the object type literal `{ rateLimiter: Fn }` is extracted as a brace-bearing
declaration classified as real. -/
theorem c1_amended_literal_real_witness :
    ([Statement.variableStatement [Modifier.exportKw, Modifier.declareKw]
        [⟨BindingName.ident ("components"),
          some (TypeExpr.typeLiteral ["rateLimiter: Fn"]), none⟩]].all stmtLiteralOk = true) ∧
    ([Statement.variableStatement [Modifier.exportKw, Modifier.declareKw]
        [⟨BindingName.ident ("components"),
          some (TypeExpr.typeLiteral ["rateLimiter: Fn"]), none⟩]].any
            stmtHasExportedComponents = true) ∧
    (∃ D,
      extractComponentTypes
          [Statement.variableStatement [Modifier.exportKw, Modifier.declareKw]
            [⟨BindingName.ident ("components"),
              some (TypeExpr.typeLiteral ["rateLimiter: Fn"]), none⟩]] = some D ∧
      strIncludes D ("\x7b") = true ∧
      hasRealComponentTypes (some D) = !(strIncludes D ("AnyComponents"))) :=
  ⟨by decide, by decide, c1_amended_literal_real _ (by decide) (by decide)⟩

/-- C2: for every artifact in which every exported `components` binding
carries a type reference annotation whose terminal name is the sentinel
`AnyComponents` (bare or qualified), `extractComponentTypes` returns null:
nothing is preserved. -/
theorem c2_sentinel_yields_null (sf : List Statement)
    (hall : sf.all stmtSentinelOk = true) :
    extractComponentTypes sf = none := by
  induction sf with
  | nil => rfl
  | cons st rest ih =>
    simp only [List.all_cons, Bool.and_eq_true] at hall
    cases st with
    | otherStatement sotext => simpa [extractComponentTypes] using ih hall.2
    | variableStatement mods decls =>
      cases he : hasExport mods with
      | false => simpa [extractComponentTypes, he] using ih hall.2
      | true =>
        have hdecls :
            (decls.all fun d => !declIsComponents d || isSentinelTypeRef d.type) = true := by
          have h1 := hall.1
          simp only [stmtSentinelOk, he, Bool.not_true, Bool.false_or] at h1
          exact h1
        rcases extractFromDecls_sentinel (hasDeclare mods)
            (printStatement (Statement.variableStatement mods decls)) decls hdecls with h | h
        · simpa [extractComponentTypes, he, h] using ih hall.2
        · simp [extractComponentTypes, he, h]

/-- C2 witness: scenario A (`export declare const components: AnyComponents;`)
and scenario C (`export declare const components: convex.AnyComponents;`,
whose qualified name has terminal text `AnyComponents`) both extract to
null. -/
theorem c2_sentinel_yields_null_witness :
    ([Statement.otherStatement ("import type ... from \x22convex/server\x22;"),
        Statement.variableStatement [Modifier.exportKw, Modifier.declareKw]
          [⟨BindingName.ident ("components"),
            some (TypeExpr.typeReference none ("AnyComponents")), none⟩]].all
              stmtSentinelOk = true) ∧
    extractComponentTypes
        [Statement.otherStatement ("import type ... from \x22convex/server\x22;"),
          Statement.variableStatement [Modifier.exportKw, Modifier.declareKw]
            [⟨BindingName.ident ("components"),
              some (TypeExpr.typeReference none ("AnyComponents")), none⟩]] = none ∧
    ([Statement.variableStatement [Modifier.exportKw, Modifier.declareKw]
        [⟨BindingName.ident ("components"),
          some (TypeExpr.typeReference (some ("convex")) ("AnyComponents")), none⟩]].all
            stmtSentinelOk = true) ∧
    extractComponentTypes
        [Statement.variableStatement [Modifier.exportKw, Modifier.declareKw]
          [⟨BindingName.ident ("components"),
            some (TypeExpr.typeReference (some ("convex")) ("AnyComponents")), none⟩]] =
      none :=
  ⟨by decide, c2_sentinel_yields_null _ (by decide), by decide,
    c2_sentinel_yields_null _ (by decide)⟩

/-- C3: for every artifact without an exported top-level `components`
binding, `extractComponentTypes` returns null, and `hasRealComponentTypes`
of that null result is false. -/
theorem c3_missing_binding_yields_null (sf : List Statement)
    (hall : sf.all stmtNoComponents = true) :
    extractComponentTypes sf = none ∧ hasRealComponentTypes none = false := by
  refine ⟨?_, rfl⟩
  induction sf with
  | nil => rfl
  | cons st rest ih =>
    simp only [List.all_cons, Bool.and_eq_true] at hall
    cases st with
    | otherStatement sotext => simpa [extractComponentTypes] using ih hall.2
    | variableStatement mods decls =>
      cases he : hasExport mods with
      | false => simpa [extractComponentTypes, he] using ih hall.2
      | true =>
        have hcd : decls.any declIsComponents = false := by
          have h1 := hall.1
          simp only [stmtNoComponents, he, Bool.not_true, Bool.false_or] at h1
          simpa using h1
        have hnone := extractFromDecls_no_components (hasDeclare mods)
          (printStatement (Statement.variableStatement mods decls)) decls hcd
        simpa [extractComponentTypes, he, hnone] using ih hall.2

/-- C3 witness: an artifact with a non-exported `components` binding and an
exported `api` binding has no exported `components` binding, so extraction
yields null. -/
theorem c3_missing_binding_yields_null_witness :
    ([Statement.variableStatement []
        [⟨BindingName.ident ("components"), none, some ("componentsGeneric()")⟩],
      Statement.variableStatement [Modifier.exportKw, Modifier.declareKw]
        [⟨BindingName.ident ("api"),
          some (TypeExpr.otherType ("FilterApi<typeof fullApi, Fn>")), none⟩]].all
            stmtNoComponents = true) ∧
    (extractComponentTypes
        [Statement.variableStatement []
          [⟨BindingName.ident ("components"), none, some ("componentsGeneric()")⟩],
        Statement.variableStatement [Modifier.exportKw, Modifier.declareKw]
          [⟨BindingName.ident ("api"),
            some (TypeExpr.otherType ("FilterApi<typeof fullApi, Fn>")), none⟩]] = none ∧
      hasRealComponentTypes none = false) :=
  ⟨by decide, c3_missing_binding_yields_null _ (by decide)⟩

/-- C4: the extraction pipeline is total over arbitrary input text.  The
Syntax Tree Adapter (`ts.createSourceFile`) is external library code
modelled here as an arbitrary total function `parse` from text to a
statement list (its contract: syntactically invalid input yields a possibly
incomplete, possibly empty statement list rather than an exception).  All
four operations are total Lean functions of the parse result — the
embedding needed no exception channel because the source bodies contain no
throwing operation — and on input that parses to nothing they degrade to
the null/false outcomes. -/
theorem c4_total_and_degrading (parse : String → List Statement) (s : String)
    (h : parse s = []) :
    extractComponentTypes (parse s) = none ∧
    hasRealComponentTypes (extractComponentTypes (parse s)) = false ∧
    extractComponentTypeAnnotation (parse s) = none ∧
    isDeclarationFile (parse s) = false := by
  rw [h]
  exact ⟨rfl, rfl, rfl, rfl⟩

/-- C4 witness: applying the pipeline to text a parser rejects entirely
(empty statement list) yields null, false, null, false. -/
theorem c4_total_and_degrading_witness :
    ((fun _ : String => ([] : List Statement)) ("%%% not source &&&") = []) ∧
    (extractComponentTypes
        ((fun _ : String => ([] : List Statement)) ("%%% not source &&&")) = none ∧
      hasRealComponentTypes
        (extractComponentTypes
          ((fun _ : String => ([] : List Statement)) ("%%% not source &&&"))) = false ∧
      extractComponentTypeAnnotation
        ((fun _ : String => ([] : List Statement)) ("%%% not source &&&")) = none ∧
      isDeclarationFile
        ((fun _ : String => ([] : List Statement)) ("%%% not source &&&")) = false) :=
  ⟨rfl, c4_total_and_degrading (fun _ => []) ("%%% not source &&&") rfl⟩

/-- C5 counterexample: on the ambient form `export declare const
components;` — a present exported `components` binding with no type
annotation and no initializer — the claim asserts `extractComponentTypes`
returns null, but the code takes the declare branch before ever checking
for an annotation and returns the printed statement. -/
theorem c5_counterexample :
    extractComponentTypes
        [Statement.variableStatement [Modifier.exportKw, Modifier.declareKw]
          [⟨BindingName.ident ("components"), none, none⟩]] =
      some ("export declare const components;") := by
  decide

/-- C5 amended: an exported `components` binding with no type annotation
yields null only in the runtime (non-declare) form; the ambient declare
form returns the printed statement (which the counterexample exhibits).
Formally: if every exported `components` binding is unannotated and no
exported declare statement binds `components`, extraction returns null. -/
theorem c5_amended_untyped_runtime_null (sf : List Statement)
    (hun : sf.all stmtUntypedOk = true)
    (hnd : sf.all stmtNoDeclareComponents = true) :
    extractComponentTypes sf = none := by
  induction sf with
  | nil => rfl
  | cons st rest ih =>
    simp only [List.all_cons, Bool.and_eq_true] at hun hnd
    cases st with
    | otherStatement sotext =>
      simpa [extractComponentTypes] using ih hun.2 hnd.2
    | variableStatement mods decls =>
      cases he : hasExport mods with
      | false => simpa [extractComponentTypes, he] using ih hun.2 hnd.2
      | true =>
        cases hd : hasDeclare mods with
        | false =>
          have hdecls : (decls.all fun d => !declIsComponents d || d.type.isNone) = true := by
            have h1 := hun.1
            simp only [stmtUntypedOk, he, Bool.not_true, Bool.false_or] at h1
            exact h1
          have hnone := extractFromDecls_untyped
            (printStatement (Statement.variableStatement mods decls)) decls hdecls
          rw [← hd] at hnone
          simpa [extractComponentTypes, he, hnone] using ih hun.2 hnd.2
        | true =>
          have hcd : decls.any declIsComponents = false := by
            have h1 := hnd.1
            simp only [stmtNoDeclareComponents, he, hd, Bool.and_self, Bool.not_true,
              Bool.false_or] at h1
            simpa using h1
          have hnone := extractFromDecls_no_components (hasDeclare mods)
            (printStatement (Statement.variableStatement mods decls)) decls hcd
          simpa [extractComponentTypes, he, hnone] using ih hun.2 hnd.2

/-- C5 amended, witness: the runtime form `export const components =
componentsGeneric();` (no annotation, no declare) extracts to null. -/
theorem c5_amended_untyped_runtime_null_witness :
    ([Statement.variableStatement [Modifier.exportKw]
        [⟨BindingName.ident ("components"), none, some ("componentsGeneric()")⟩]].all
          stmtUntypedOk = true) ∧
    ([Statement.variableStatement [Modifier.exportKw]
        [⟨BindingName.ident ("components"), none, some ("componentsGeneric()")⟩]].all
          stmtNoDeclareComponents = true) ∧
    extractComponentTypes
        [Statement.variableStatement [Modifier.exportKw]
          [⟨BindingName.ident ("components"), none, some ("componentsGeneric()")⟩]] =
      none :=
  ⟨by decide, by decide, c5_amended_untyped_runtime_null _ (by decide) (by decide)⟩

/-- Re-wrapping an annotation as `export declare const components:
<annotation>;` is the statement `wrapComponents T`, whose canonical print
is exactly that text (with `T` the annotation's type node, which the text
re-parses to). -/
def wrapComponents (T : TypeExpr) : Statement :=
  Statement.variableStatement [Modifier.exportKw, Modifier.declareKw]
    [⟨BindingName.ident ("components"), some T, none⟩]

/-- The printed re-wrapped statement is the ambient template around the
printed type. -/
theorem printStatement_wrap (T : TypeExpr) :
    printStatement (wrapComponents T) =
      "export declare const components: " ++ printType T ++ ";" := by
  have big : ("export declare const components: " : String) =
      "export " ++ ("declare " ++ ("const " ++ ("components" ++ ": "))) := by decide
  have e0 : ("" : String).data = ([] : List Char) := rfl
  apply String.ext
  rw [big]
  simp only [wrapComponents, printStatement, printModifiers, printModifier, printDecls,
    printDecl, printBindingName, printOptType, printOptInit, String.data_append]
  simp [List.append_assoc, e0]

/-- C6 counterexample: `extractComponentTypes` on the annotation-less
ambient binding `export declare const components;` returns the non-null
printed statement, yet annotation extraction on that declaration text (it
re-parses to the same statement it was printed from) returns null rather
than a type-expression text, so the round trip fails for this non-null
result. -/
theorem c6_counterexample :
    extractComponentTypes
        [Statement.variableStatement [Modifier.exportKw, Modifier.declareKw]
          [⟨BindingName.ident ("components"), none, none⟩]] =
      some (printStatement
        (Statement.variableStatement [Modifier.exportKw, Modifier.declareKw]
          [⟨BindingName.ident ("components"), none, none⟩])) ∧
    printStatement
        (Statement.variableStatement [Modifier.exportKw, Modifier.declareKw]
          [⟨BindingName.ident ("components"), none, none⟩]) =
      "export declare const components;" ∧
    extractComponentTypeAnnotation
        [Statement.variableStatement [Modifier.exportKw, Modifier.declareKw]
          [⟨BindingName.ident ("components"), none, none⟩]] = none := by
  exact ⟨by decide, by decide, by decide⟩

/-- C6 amended: for every declaration returned from a single-binding
artifact whose `components` binding carries a (non-sentinel) type
annotation `T`, annotation extraction on the returned text yields exactly
the printed type expression (no statement wrapper), re-wrapping it gives
the ambient template text, and re-extracting the re-wrapped statement
returns that same template with the same annotation. -/
theorem c6_amended_roundtrip (mods : List Modifier) (T : TypeExpr) (i : Option String)
    (he : hasExport mods = true) (hs : isSentinelTypeRef (some T) = false) :
    ∃ D,
      extractComponentTypes
          [Statement.variableStatement mods
            [⟨BindingName.ident ("components"), some T, i⟩]] = some D ∧
      extractComponentTypeAnnotation
          [Statement.variableStatement mods
            [⟨BindingName.ident ("components"), some T, i⟩]] = some (printType T) ∧
      printStatement (wrapComponents T) =
        "export declare const components: " ++ printType T ++ ";" ∧
      extractComponentTypes [wrapComponents T] =
        some ("export declare const components: " ++ printType T ++ ";") ∧
      extractComponentTypeAnnotation [wrapComponents T] = some (printType T) := by
  have hwrap := printStatement_wrap T
  have hannot : extractComponentTypeAnnotation
      [Statement.variableStatement mods
        [⟨BindingName.ident ("components"), some T, i⟩]] = some (printType T) := by
    simp [ extractComponentTypeAnnotation, annotFromDecls]
  have hwrapannot : extractComponentTypeAnnotation [wrapComponents T] =
      some (printType T) := by
    simp [wrapComponents, extractComponentTypeAnnotation, annotFromDecls]
  have hwrapext : extractComponentTypes [wrapComponents T] =
      some ("export declare const components: " ++ printType T ++ ";") := by
    rw [← hwrap]
    simp [wrapComponents, extractComponentTypes, extractFromDecls, hs, hasExport, hasDeclare]
  cases hd : hasDeclare mods with
  | true =>
    refine ⟨printStatement (Statement.variableStatement mods
        [⟨BindingName.ident ("components"), some T, i⟩]), ?_, hannot, hwrap, hwrapext,
      hwrapannot⟩
    simp [extractComponentTypes, he, extractFromDecls, hd, hs]
  | false =>
    refine ⟨"export declare const components: " ++ printType T ++ ";", ?_, hannot, hwrap,
      hwrapext, hwrapannot⟩
    simp [extractComponentTypes, he, extractFromDecls, hd, hs]

/-- C6 amended, witness: scenario B's binding `export declare const
components: { rateLimiter: { lib: { check: Fn } } };` round-trips, and the
extracted annotation text contains neither `export` nor `declare` nor
`const components`. -/
theorem c6_amended_roundtrip_witness :
    hasExport [Modifier.exportKw, Modifier.declareKw] = true ∧
    isSentinelTypeRef
        (some (TypeExpr.typeLiteral
          ["rateLimiter: \x7b lib: \x7b check: Fn \x7d \x7d"])) = false ∧
    (∃ D,
      extractComponentTypes
          [Statement.variableStatement [Modifier.exportKw, Modifier.declareKw]
            [⟨BindingName.ident ("components"),
              some (TypeExpr.typeLiteral
                ["rateLimiter: \x7b lib: \x7b check: Fn \x7d \x7d"]), none⟩]] = some D ∧
      extractComponentTypeAnnotation
          [Statement.variableStatement [Modifier.exportKw, Modifier.declareKw]
            [⟨BindingName.ident ("components"),
              some (TypeExpr.typeLiteral
                ["rateLimiter: \x7b lib: \x7b check: Fn \x7d \x7d"]), none⟩]] =
        some (printType (TypeExpr.typeLiteral
          ["rateLimiter: \x7b lib: \x7b check: Fn \x7d \x7d"])) ∧
      printStatement (wrapComponents (TypeExpr.typeLiteral
          ["rateLimiter: \x7b lib: \x7b check: Fn \x7d \x7d"])) =
        "export declare const components: " ++
          printType (TypeExpr.typeLiteral
            ["rateLimiter: \x7b lib: \x7b check: Fn \x7d \x7d"]) ++ ";" ∧
      extractComponentTypes [wrapComponents (TypeExpr.typeLiteral
          ["rateLimiter: \x7b lib: \x7b check: Fn \x7d \x7d"])] =
        some ("export declare const components: " ++
          printType (TypeExpr.typeLiteral
            ["rateLimiter: \x7b lib: \x7b check: Fn \x7d \x7d"]) ++ ";") ∧
      extractComponentTypeAnnotation [wrapComponents (TypeExpr.typeLiteral
          ["rateLimiter: \x7b lib: \x7b check: Fn \x7d \x7d"])] =
        some (printType (TypeExpr.typeLiteral
          ["rateLimiter: \x7b lib: \x7b check: Fn \x7d \x7d"]))) ∧
    strIncludes (printType (TypeExpr.typeLiteral
        ["rateLimiter: \x7b lib: \x7b check: Fn \x7d \x7d"])) ("export") = false ∧
    strIncludes (printType (TypeExpr.typeLiteral
        ["rateLimiter: \x7b lib: \x7b check: Fn \x7d \x7d"])) ("declare") = false ∧
    strIncludes (printType (TypeExpr.typeLiteral
        ["rateLimiter: \x7b lib: \x7b check: Fn \x7d \x7d"])) ("const components") = false :=
  ⟨by decide, by decide,
    c6_amended_roundtrip [Modifier.exportKw, Modifier.declareKw]
      (TypeExpr.typeLiteral ["rateLimiter: \x7b lib: \x7b check: Fn \x7d \x7d"]) none
      (by decide) (by decide),
    by decide, by decide, by decide⟩

/-- C7: `isDeclarationFile` is true exactly when the parsed statement list
contains a top-level variable statement carrying both the export and the
declare modifier.  It is a pure function of the syntax tree, in which
comments and string literals are not statements: the closed instances show
a statement whose string-literal initializer spells the marker phrase
yields false, while an actual ambient exported binding yields true. -/
theorem c7_isDeclarationFile_iff :
    (∀ sf : List Statement,
      isDeclarationFile sf = true ↔
        ∃ mods decls, Statement.variableStatement mods decls ∈ sf ∧
          hasExport mods = true ∧ hasDeclare mods = true) ∧
    isDeclarationFile
        [Statement.variableStatement []
          [⟨BindingName.ident ("example"), none,
            some ("\x22export declare const components: AnyComponents;\x22")⟩]] = false ∧
    isDeclarationFile
        [Statement.otherStatement ("import \x22convex/server\x22;"),
          Statement.variableStatement [Modifier.exportKw, Modifier.declareKw]
            [⟨BindingName.ident ("components"), some (TypeExpr.typeLiteral []), none⟩]] =
      true := by
  refine ⟨?_, by decide, by decide⟩
  intro sf
  unfold isDeclarationFile
  rw [List.any_eq_true]
  constructor
  · rintro ⟨s, hs, hp⟩
    cases s with
    | otherStatement t => simp at hp
    | variableStatement mods decls =>
      have hp' : hasExport mods = true ∧ hasDeclare mods = true := by simpa using hp
      exact ⟨mods, decls, hs, hp'.1, hp'.2⟩
  · rintro ⟨mods, decls, hmem, h1, h2⟩
    exact ⟨Statement.variableStatement mods decls, hmem, by simp [h1, h2]⟩

/-- C8 counterexample: for `export declare const components:
SomeOtherType;` — a non-sentinel type reference annotation — the claim
asserts classification as Real with `hasRealComponentTypes` true; the code
does return the declaration, but its text contains no brace, so
`hasRealComponentTypes` returns false. -/
theorem c8_counterexample :
    extractComponentTypes
        [Statement.variableStatement [Modifier.exportKw, Modifier.declareKw]
          [⟨BindingName.ident ("components"),
            some (TypeExpr.typeReference none ("SomeOtherType")), none⟩]] =
      some ("export declare const components: SomeOtherType;") ∧
    hasRealComponentTypes
        (extractComponentTypes
          [Statement.variableStatement [Modifier.exportKw, Modifier.declareKw]
            [⟨BindingName.ident ("components"),
              some (TypeExpr.typeReference none ("SomeOtherType")), none⟩]]) = false := by
  exact ⟨by decide, by decide⟩

/-- C8 amended: every exported `components` binding whose annotation is not
a sentinel type reference yields a non-null extracted declaration `D`, and
`hasRealComponentTypes D` is true exactly when the text `D` contains an
opening brace and does not contain the substring `AnyComponents`: in
particular true for the empty object type literal `{}` (the closed
conjunct), false for a bare non-sentinel type reference, whose printed
declaration has no brace (the counterexample), and false for a literal
whose printed text contains the sentinel substring. -/
theorem c8_amended_nonsentinel_nonnull (sf : List Statement)
    (hall : sf.all stmtTypedNonSentinelOk = true)
    (hex : sf.any stmtHasExportedComponents = true) :
    (∃ D, extractComponentTypes sf = some D ∧
      hasRealComponentTypes (some D) =
        (strIncludes D ("\x7b") && !(strIncludes D ("AnyComponents")))) ∧
    hasRealComponentTypes
        (extractComponentTypes
          [Statement.variableStatement [Modifier.exportKw, Modifier.declareKw]
            [⟨BindingName.ident ("components"), some (TypeExpr.typeLiteral []),
              none⟩]]) = true := by
  refine ⟨?_, by decide⟩
  induction sf with
  | nil => cases hex
  | cons st rest ih =>
    simp only [List.all_cons, Bool.and_eq_true] at hall
    cases st with
    | otherStatement sotext =>
      have hex' : rest.any stmtHasExportedComponents = true := by
        simpa [List.any_cons, stmtHasExportedComponents] using hex
      obtain ⟨D, h1, h2⟩ := ih hall.2 hex'
      exact ⟨D, by simpa [extractComponentTypes] using h1, h2⟩
    | variableStatement mods decls =>
      cases he : hasExport mods with
      | false =>
        have hex' : rest.any stmtHasExportedComponents = true := by
          simpa [List.any_cons, stmtHasExportedComponents, he] using hex
        obtain ⟨D, h1, h2⟩ := ih hall.2 hex'
        exact ⟨D, by simpa [extractComponentTypes, he] using h1, h2⟩
      | true =>
        cases hcd : decls.any declIsComponents with
        | true =>
          have hdecls : (decls.all fun d =>
              !declIsComponents d || (d.type.isSome && !isSentinelTypeRef d.type)) = true := by
            have h1 := hall.1
            simp only [stmtTypedNonSentinelOk, he, Bool.not_true, Bool.false_or] at h1
            exact h1
          have ht : ¬ printStatement (Statement.variableStatement mods decls) = "" := by
            simp only [printStatement]
            exact append_semicolon_ne_empty _
          obtain ⟨D, hD, hne⟩ := extractFromDecls_typed (hasDeclare mods)
            (printStatement (Statement.variableStatement mods decls)) decls ht hdecls hcd
          refine ⟨D, by simp [extractComponentTypes, he, hD], ?_⟩
          simp [hasRealComponentTypes, hne]
        | false =>
          have hnone := extractFromDecls_no_components (hasDeclare mods)
            (printStatement (Statement.variableStatement mods decls)) decls hcd
          have hex' : rest.any stmtHasExportedComponents = true := by
            simpa [List.any_cons, stmtHasExportedComponents, he, hcd] using hex
          obtain ⟨D, h1, h2⟩ := ih hall.2 hex'
          exact ⟨D, by simpa [extractComponentTypes, he, hnone] using h1, h2⟩

/-- C8 amended, witness: a non-sentinel bare reference annotation yields a
non-null extraction whose realness equals the brace-and-no-sentinel test on
its text (which the counterexample shows evaluates to false there), while
the empty literal evaluates to true. -/
theorem c8_amended_nonsentinel_nonnull_witness :
    ([Statement.variableStatement [Modifier.exportKw, Modifier.declareKw]
        [⟨BindingName.ident ("components"),
          some (TypeExpr.typeReference none ("ComponentTypes")), none⟩]].all
            stmtTypedNonSentinelOk = true) ∧
    ([Statement.variableStatement [Modifier.exportKw, Modifier.declareKw]
        [⟨BindingName.ident ("components"),
          some (TypeExpr.typeReference none ("ComponentTypes")), none⟩]].any
            stmtHasExportedComponents = true) ∧
    ((∃ D, extractComponentTypes
        [Statement.variableStatement [Modifier.exportKw, Modifier.declareKw]
          [⟨BindingName.ident ("components"),
            some (TypeExpr.typeReference none ("ComponentTypes")), none⟩]] = some D ∧
        hasRealComponentTypes (some D) =
          (strIncludes D ("\x7b") && !(strIncludes D ("AnyComponents")))) ∧
      hasRealComponentTypes
          (extractComponentTypes
            [Statement.variableStatement [Modifier.exportKw, Modifier.declareKw]
              [⟨BindingName.ident ("components"), some (TypeExpr.typeLiteral []),
                none⟩]]) = true) :=
  ⟨by decide, by decide, c8_amended_nonsentinel_nonnull _ (by decide) (by decide)⟩

/-- C9: a runtime-assignment binding `export const components: T = <init>;`
with a non-sentinel explicit annotation extracts to the normalized ambient
statement `export declare const components: <printed T>;`, with no
initializer text — the result is the same for every initializer
expression. -/
theorem c9_runtime_form_normalized (mods : List Modifier) (T : TypeExpr) (i : Option String)
    (he : hasExport mods = true) (hd : hasDeclare mods = false)
    (hs : isSentinelTypeRef (some T) = false) :
    extractComponentTypes
        [Statement.variableStatement mods
          [⟨BindingName.ident ("components"), some T, i⟩]] =
      some ("export declare const components: " ++ printType T ++ ";") := by
  simp [extractComponentTypes, he, extractFromDecls, hd, hs]

/-- C9 witness: `export const components: { a: B } = componentsGeneric();`
extracts to `export declare const components: { a: B };` — the initializer
text is absent from the output. -/
theorem c9_runtime_form_normalized_witness :
    hasExport [Modifier.exportKw] = true ∧
    hasDeclare [Modifier.exportKw] = false ∧
    isSentinelTypeRef (some (TypeExpr.typeLiteral ["a: B"])) = false ∧
    extractComponentTypes
        [Statement.variableStatement [Modifier.exportKw]
          [⟨BindingName.ident ("components"), some (TypeExpr.typeLiteral ["a: B"]),
            some ("componentsGeneric()")⟩]] =
      some ("export declare const components: " ++
        printType (TypeExpr.typeLiteral ["a: B"]) ++ ";") ∧
    strIncludes ("export declare const components: " ++
        printType (TypeExpr.typeLiteral ["a: B"]) ++ ";") ("componentsGeneric") = false :=
  ⟨by decide, by decide, by decide,
    c9_runtime_form_normalized [Modifier.exportKw] (TypeExpr.typeLiteral ["a: B"])
      (some ("componentsGeneric()")) (by decide) (by decide) (by decide),
    by decide⟩

/-- C10: annotation extraction performs no modifier check — any top-level
variable statement binding `components` with a type annotation is accepted,
whatever its modifier list; in particular the plain binding
`const components: Foo = x;` yields the printed type `Foo`. -/
theorem c10_no_modifier_check :
    (∀ (mods : List Modifier) (T : TypeExpr) (i : Option String) (rest : List Statement),
      extractComponentTypeAnnotation
          (Statement.variableStatement mods
            [⟨BindingName.ident ("components"), some T, i⟩] :: rest) =
        some (printType T)) ∧
    extractComponentTypeAnnotation
        [Statement.variableStatement []
          [⟨BindingName.ident ("components"),
            some (TypeExpr.typeReference none ("Foo")), some ("x")⟩]] =
      some ("Foo") := by
  refine ⟨?_, by decide⟩
  intro mods T i rest
  simp [ extractComponentTypeAnnotation, annotFromDecls]

end Claims

end ComponentTypePreservation
